import Mathlib

/-!
Verification development for the review-scraper program
(pulsegen/review_scraper/scraper.py).

The scraper drives a browser over paginated review listings and is here
embedded shallowly: every interaction with the live page (element lookup,
attribute read, navigation outcome, rendered markup) is a field of an
abstract page/container model supplied as input, and the control flow of
the Python functions is reproduced as pure Lean functions over that model.
Dates are modelled as integers (only their order matters); the third-party
fuzzy date parser is an abstract function from the extracted text to an
optional date.
-/

/-- Lowercase a string character by character, as the Python lower call
does on the ASCII needles and markup relevant here. -/
def lowerStr (s : String) : String := ⟨s.data.map Char.toLower⟩

/-- Substring containment: does the needle occur inside the haystack?
Embeds the Python expression checking membership of one string in another. -/
def strContains (hay need : String) : Bool := decide (need.data <:+: hay.data)

/-- The fixed indicator-phrase list of detect_blocked (scraper.py 82-91). -/
def blockedNeedles : List String :=
  ["captcha", "Access Denied", "unusual traffic", "verify you are human",
   "robot", "blocked", "Cloudflare", "Please enable cookies"]

/-- detect_blocked (scraper.py 78-93): lowercase the whole markup, then
report whether any lowercased needle occurs as a substring. -/
def detect_blocked (html : String) : Bool :=
  let low := lowerStr html
  blockedNeedles.any (fun n => strContains low (lowerStr n))

/-- in_range (scraper.py 35-36): the date is present and lies inclusively
between start and end. -/
def in_range (d : Option Int) (start_d end_d : Int) : Bool :=
  match d with
  | none => false
  | some v => decide (start_d ≤ v) && decide (v ≤ end_d)

/-- One output record, as assembled at scraper.py 271-277 and 362-368.
The date field holds the parsed date value that the Python code then
serializes in ISO form. -/
structure ReviewRecord where
  source : String
  title : String
  review : String
  date : Int
  rating : Option String
  deriving Repr, DecidableEq

/-- Abstract view of one review container element.  query sel is the
stripped inner text of the first node matching sel (none when the lookup
times out or raises); present sel tells whether the first node matching
sel exists (its count is nonzero); attr sel a is the value of attribute a
on that first node (none when the attribute is absent). -/
structure Container where
  query : String → Option String
  present : String → Bool
  attr : String → String → Option String

/-- Abstract view of one fetched listing page: whether the primary
navigation (wait for DOM content) times out, whether the retry navigation
(wait for full load) would also time out, the rendered markup, the
element count per selector, and the container elements matched by the
adapter's card locator in DOM order. -/
structure Page where
  navDomTimeout : Bool
  navLoadTimeout : Bool
  html : String
  count : String → Nat
  cards : List Container

/-- The ordered probe selectors candidate_waits of scrape_g2 (175-181). -/
def g2_candidate_waits : List String :=
  ["div.paper", "div[data-testid*=\x27review\x27]", "article",
   "[itemprop=\x27review\x27]", "div[class*=\x27review\x27]"]

/-- The ordered body selectors of scrape_g2 (213-219). -/
def g2_body_selectors : List String :=
  ["div[itemprop=\x27reviewBody\x27]", "[data-testid*=\x27review-text\x27]",
   "div[class*=\x27reviewBody\x27]", "div[class*=\x27review-body\x27]", "p"]

/-- The ordered date selectors of scrape_g2 (232). -/
def g2_date_selectors : List String :=
  ["time", "span:has-text(\x27Reviewed on\x27)", "div:has-text(\x27Reviewed on\x27)"]

/-- The ordered rating selectors of scrape_g2 (256). -/
def g2_rating_selectors : List String :=
  ["span[itemprop=\x27ratingValue\x27]", "meta[itemprop=\x27ratingValue\x27]"]

/-- The ordered body selectors of scrape_trustradius (336). -/
def tr_body_selectors : List String :=
  ["p", "div[class*=\x27review\x27]", "div[class*=\x27content\x27]"]

/-- The ordered date selectors of scrape_trustradius (346). -/
def tr_date_selectors : List String :=
  ["time", "span:has-text(\x27, 20\x27)", "div:has-text(\x27, 20\x27)"]

/-- Body fallback chain (scraper.py 220-227 and 336-343): the first
selector whose text is non-empty and strictly longer than 20 characters
wins; lookup failures and too-short texts fall through to the next
candidate. -/
def firstBody (c : Container) : List String → Option String
  | [] => none
  | sel :: rest =>
    match c.query sel with
    | some t => if t ≠ "" ∧ 20 < t.length then some t else firstBody c rest
    | none => firstBody c rest

/-- Date-text fallback chain (scraper.py 232-239 and 346-353): the first
selector with non-empty text wins. -/
def firstNonEmpty (c : Container) : List String → Option String
  | [] => none
  | sel :: rest =>
    match c.query sel with
    | some t => if t ≠ "" then some t else firstNonEmpty c rest
    | none => firstNonEmpty c rest

/-- The parsed date of a container under a given parser: the date chain
text, fed to the parser; no text parses to no date, exactly as
parse_any_date returns none on empty input (scraper.py 26-27, 240). -/
def containerDate (parseDate : String → Option Int) (c : Container)
    (sels : List String) : Option Int :=
  (firstNonEmpty c sels).bind parseDate

/-- Rating fallback chain of scrape_g2 (255-268).  The rating variable
persists across iterations; a selector with no matching node skips the
iteration, a meta selector reads the content attribute (possibly absent),
a non-meta selector reads the inner text (a lookup failure leaves the
variable untouched and skips the truthiness check); a non-empty value
stops the chain. -/
def g2_rating_go (c : Container) : List String → Option String → Option String
  | [], r => r
  | sel :: rest, r =>
    if c.present sel then
      if strContains sel "meta" then
        match c.attr sel "content" with
        | some t => if t ≠ "" then some t else g2_rating_go c rest (some t)
        | none => g2_rating_go c rest none
      else
        match c.query sel with
        | some t => if t ≠ "" then some t else g2_rating_go c rest (some t)
        | none => g2_rating_go c rest r
    else g2_rating_go c rest r

/-- The rating of a G2 container: the chain starting from the Python
initial value None. -/
def g2_rating (c : Container) : Option String :=
  g2_rating_go c g2_rating_selectors none

/-- Processing of one G2 container (scraper.py 208-277): extract body and
date; a parsed date before start_d skips the card and raises the
stop_due_to_old flag; otherwise the record is kept exactly when a body
was found and the date is in range.  Returns the optional record and
whether the flag was raised by this card. -/
def g2_process (parseDate : String → Option Int) (start_d end_d : Int)
    (c : Container) : Option ReviewRecord × Bool :=
  match containerDate parseDate c g2_date_selectors with
  | some dv =>
    if dv < start_d then (none, true)
    else if (firstBody c g2_body_selectors).isSome && in_range (some dv) start_d end_d then
      (some ⟨"G2", (c.query "h3").getD "", (firstBody c g2_body_selectors).getD "",
         dv, g2_rating c⟩, false)
    else (none, false)
  | none => (none, false)

/-- Per-run mutable state of the G2 page loop: the collected records and
the stop_due_to_old flag (scraper.py 137, 157). -/
structure HState where
  collected : List ReviewRecord
  stopOld : Bool

/-- The inner card loop of scrape_g2 (208-277) over the selected cards:
records append in order, the stop flag is monotone. -/
def g2_card_loop (parseDate : String → Option Int) (start_d end_d : Int) :
    List Container → HState → HState
  | [], s => s
  | c :: rest, s =>
    let pr := g2_process parseDate start_d end_d c
    g2_card_loop parseDate start_d end_d rest
      ⟨s.collected ++ pr.1.toList, s.stopOld || pr.2⟩

/-- Why a run stopped: loop exhaustion, no containers found, blocked
markup detected, or the date boundary crossed.  These tag the distinct
exit paths of the Python pagination loops. -/
inductive StopReason where
  | maxPages
  | noContainers
  | blocked
  | dateBoundary
  deriving Repr, DecidableEq

/-- The observable outcome of a run that did not raise: the collected
records, how many pages the loop body visited, and the exit path taken. -/
structure HarvestResult where
  records : List ReviewRecord
  pagesVisited : Nat
  reason : StopReason
  deriving Repr, DecidableEq

/-- Navigation of scrape_g2 (163-167): try the DOM-content wait; on
timeout retry once with the full-load wait; a second timeout propagates. -/
def g2_nav (pg : Page) : Except Unit Unit :=
  if pg.navDomTimeout then
    if pg.navLoadTimeout then .error () else .ok ()
  else .ok ()

/-- Navigation of scrape_trustradius (319): a single DOM-content wait
with no handler; a timeout propagates at once. -/
def tr_nav (pg : Page) : Except Unit Unit :=
  if pg.navDomTimeout then .error () else .ok ()

/-- The probe of scrape_g2 (182-189): some candidate selector matches at
least one element. -/
def g2_found_any (pg : Page) : Bool :=
  g2_candidate_waits.any (fun sel => decide (0 < pg.count sel))

/-- The page loop of scrape_g2 (159-283), with the remaining page budget
as fuel.  Per page: navigate (a double timeout propagates), capture the
markup and stop as blocked when the detector fires, stop when the probe
found no container, otherwise process up to 60 cards and stop after the
page when the old-date flag is set. -/
def g2_go (parseDate : String → Option Int) (start_d end_d : Int)
    (pages : Nat → Page) : Nat → Nat → HState → Except Unit HarvestResult
  | 0, pageNo, s => .ok ⟨s.collected, pageNo - 1, .maxPages⟩
  | fuel + 1, pageNo, s =>
    let pg := pages pageNo
    match g2_nav pg with
    | .error e => .error e
    | .ok _ =>
      if detect_blocked pg.html then .ok ⟨s.collected, pageNo, .blocked⟩
      else if !g2_found_any pg then .ok ⟨s.collected, pageNo, .noContainers⟩
      else
        let s2 := g2_card_loop parseDate start_d end_d (pg.cards.take 60) s
        if s2.stopOld then .ok ⟨s2.collected, pageNo, .dateBoundary⟩
        else g2_go parseDate start_d end_d pages fuel (pageNo + 1) s2

/-- scrape_g2 (135-288): run the page loop from page 1 with empty state. -/
def scrape_g2 (parseDate : String → Option Int) (start_d end_d : Int)
    (max_pages : Nat) (pages : Nat → Page) : Except Unit HarvestResult :=
  g2_go parseDate start_d end_d pages max_pages 1 ⟨[], false⟩

/-- Processing of one TrustRadius card (scraper.py 332-368): body chain,
date chain, and the record kept exactly when a body was found and the
date is in range; the rating is the literal None. -/
def tr_process (parseDate : String → Option Int) (start_d end_d : Int)
    (c : Container) : Option ReviewRecord :=
  match containerDate parseDate c tr_date_selectors with
  | some dv =>
    if (firstBody c tr_body_selectors).isSome && in_range (some dv) start_d end_d then
      some ⟨"TrustRadius", (c.query "h3").getD "",
        (firstBody c tr_body_selectors).getD "", dv, none⟩
    else none
  | none => none

/-- The inner card loop of scrape_trustradius (332-368). -/
def tr_card_loop (parseDate : String → Option Int) (start_d end_d : Int) :
    List Container → List ReviewRecord → List ReviewRecord
  | [], acc => acc
  | c :: rest, acc =>
    tr_card_loop parseDate start_d end_d rest
      (acc ++ (tr_process parseDate start_d end_d c).toList)

/-- The page loop of scrape_trustradius (316-370): navigate with no retry
(a timeout propagates), stop when the card locator matches nothing,
otherwise process up to 60 cards and always continue to the next page —
this adapter has no blocked-page check and no old-date stop flag. -/
def tr_go (parseDate : String → Option Int) (start_d end_d : Int)
    (pages : Nat → Page) : Nat → Nat → List ReviewRecord → Except Unit HarvestResult
  | 0, pageNo, acc => .ok ⟨acc, pageNo - 1, .maxPages⟩
  | fuel + 1, pageNo, acc =>
    let pg := pages pageNo
    match tr_nav pg with
    | .error e => .error e
    | .ok _ =>
      if pg.cards.length = 0 then .ok ⟨acc, pageNo, .noContainers⟩
      else
        tr_go parseDate start_d end_d pages fuel (pageNo + 1)
          (tr_card_loop parseDate start_d end_d (pg.cards.take 60) acc)

/-- scrape_trustradius (294-375): run the page loop from page 1. -/
def scrape_trustradius (parseDate : String → Option Int) (start_d end_d : Int)
    (max_pages : Nat) (pages : Nat → Page) : Except Unit HarvestResult :=
  tr_go parseDate start_d end_d pages max_pages 1 []

/-- scrape_capterra (381-385): a documented placeholder returning the
empty list for every input. -/
def scrape_capterra (company_id : String) (start_d end_d : Int)
    (debug_html headless : Bool) (slow_mo : Int) : List ReviewRecord := []

/-- The default of the max_pages argument in main (scraper.py 397). -/
def default_max_pages : Nat := 10

/-! Basic facts about the range check and the fallback chains. -/

theorem in_range_some_iff {dv start_d end_d : Int} :
    in_range (some dv) start_d end_d = true ↔ start_d ≤ dv ∧ dv ≤ end_d := by
  simp [in_range]

theorem string_ne_empty_of_long {t : String} (h : 20 < t.length) : t ≠ "" := by
  intro he
  subst he
  exact absurd h (by decide)

theorem firstBody_length {c : Container} {sels : List String} {t : String}
    (h : firstBody c sels = some t) : 20 < t.length := by
  induction sels with
  | nil => exact absurd h (by simp [firstBody])
  | cons sel rest ih =>
    simp only [firstBody] at h
    split at h
    next u hq =>
      split at h
      next hcond => exact Option.some.inj h ▸ hcond.2
      next => exact ih h
    next => exact ih h

theorem firstBody_head {c : Container} {sel : String} {rest : List String} {t : String}
    (hq : c.query sel = some t) (hl : 20 < t.length) :
    firstBody c (sel :: rest) = some t := by
  have hne : t ≠ "" := string_ne_empty_of_long hl
  simp only [firstBody, hq]
  rw [if_pos ⟨hne, hl⟩]

/-! Facts about the processing of one container in each adapter. -/

theorem g2_process_some {parseDate : String → Option Int} {start_d end_d : Int}
    {c : Container} {r : ReviewRecord}
    (h : (g2_process parseDate start_d end_d c).1 = some r) :
    r.source = "G2" ∧ start_d ≤ r.date ∧ r.date ≤ end_d ∧ 20 < r.review.length ∧
      containerDate parseDate c g2_date_selectors = some r.date := by
  unfold g2_process at h
  split at h
  next dv hd =>
    split at h
    next => exact absurd h (by simp)
    next =>
      split at h
      next hcond =>
        rcases Bool.and_eq_true .. |>.mp hcond with ⟨hbody, hrange⟩
        rcases in_range_some_iff.mp hrange with ⟨h1, h2⟩
        rcases hb : firstBody c g2_body_selectors with _ | b
        · rw [hb] at hbody; exact absurd hbody (by simp)
        · rw [hb] at h
          obtain rfl := Option.some.inj h
          exact ⟨rfl, h1, h2, by simpa using firstBody_length hb, hd⟩
      next => exact absurd h (by simp)
  next hd => exact absurd h (by simp)

theorem g2_process_none_date {parseDate : String → Option Int} {start_d end_d : Int}
    {c : Container} (hd : containerDate parseDate c g2_date_selectors = none) :
    (g2_process parseDate start_d end_d c).1 = none := by
  unfold g2_process
  rw [hd]

theorem g2_process_old {parseDate : String → Option Int} {start_d end_d : Int}
    {c : Container} {dv : Int}
    (hd : containerDate parseDate c g2_date_selectors = some dv) (hlt : dv < start_d) :
    g2_process parseDate start_d end_d c = (none, true) := by
  unfold g2_process
  rw [hd]
  simp [hlt]

theorem g2_process_flag_iff {parseDate : String → Option Int} {start_d end_d : Int}
    {c : Container} :
    (g2_process parseDate start_d end_d c).2 = true ↔
      ∃ dv, containerDate parseDate c g2_date_selectors = some dv ∧ dv < start_d := by
  constructor
  · intro h
    unfold g2_process at h
    split at h
    next dv hd =>
      split at h
      next hlt => exact ⟨dv, hd, hlt⟩
      next =>
        split at h
        next => exact absurd h (by simp)
        next => exact absurd h (by simp)
    next => exact absurd h (by simp)
  · rintro ⟨dv, hd, hlt⟩
    rw [g2_process_old hd hlt]

theorem g2_process_flag_false {parseDate : String → Option Int} {start_d end_d : Int}
    {c : Container}
    (h : ∀ dv, containerDate parseDate c g2_date_selectors = some dv → start_d ≤ dv) :
    (g2_process parseDate start_d end_d c).2 = false := by
  cases hf : (g2_process parseDate start_d end_d c).2 with
  | false => rfl
  | true =>
    rcases g2_process_flag_iff.mp hf with ⟨dv, hd, hlt⟩
    exact absurd (h dv hd) (by omega)

theorem g2_process_newer {parseDate : String → Option Int} {start_d end_d : Int}
    {c : Container} {dv : Int} (hse : start_d ≤ end_d)
    (hd : containerDate parseDate c g2_date_selectors = some dv) (hgt : end_d < dv) :
    g2_process parseDate start_d end_d c = (none, false) := by
  unfold g2_process
  rw [hd]
  have h1 : ¬ dv < start_d := by omega
  have h2 : in_range (some dv) start_d end_d = false := by
    simp only [in_range]
    simp only [decide_eq_true_eq, Bool.and_eq_false_iff, decide_eq_false_iff_not]
    omega
  simp [h1, h2]

theorem tr_process_some {parseDate : String → Option Int} {start_d end_d : Int}
    {c : Container} {r : ReviewRecord}
    (h : tr_process parseDate start_d end_d c = some r) :
    r.source = "TrustRadius" ∧ start_d ≤ r.date ∧ r.date ≤ end_d ∧
      20 < r.review.length ∧ r.rating = none ∧
      containerDate parseDate c tr_date_selectors = some r.date := by
  unfold tr_process at h
  split at h
  next dv hd =>
    split at h
    next hcond =>
      rcases Bool.and_eq_true .. |>.mp hcond with ⟨hbody, hrange⟩
      rcases in_range_some_iff.mp hrange with ⟨h1, h2⟩
      rcases hb : firstBody c tr_body_selectors with _ | b
      · rw [hb] at hbody; exact absurd hbody (by simp)
      · rw [hb] at h
        obtain rfl := Option.some.inj h
        exact ⟨rfl, h1, h2, by simpa using firstBody_length hb, rfl, hd⟩
    next => exact absurd h (by simp)
  next => exact absurd h (by simp)

theorem tr_process_none_date {parseDate : String → Option Int} {start_d end_d : Int}
    {c : Container} (hd : containerDate parseDate c tr_date_selectors = none) :
    tr_process parseDate start_d end_d c = none := by
  unfold tr_process
  rw [hd]

/-! Facts about the inner card loops. -/

theorem g2_card_loop_stopOld {parseDate : String → Option Int} {start_d end_d : Int}
    {cs : List Container} {s : HState} :
    (g2_card_loop parseDate start_d end_d cs s).stopOld =
      (s.stopOld || cs.any fun c => (g2_process parseDate start_d end_d c).2) := by
  induction cs generalizing s with
  | nil => simp [g2_card_loop]
  | cons c rest ih => simp [g2_card_loop, ih, Bool.or_assoc]

theorem g2_card_loop_mono {parseDate : String → Option Int} {start_d end_d : Int}
    {cs : List Container} {s : HState} {r : ReviewRecord} (h : r ∈ s.collected) :
    r ∈ (g2_card_loop parseDate start_d end_d cs s).collected := by
  induction cs generalizing s with
  | nil => exact h
  | cons c rest ih =>
    simp only [g2_card_loop]
    exact ih (List.mem_append_left _ h)

theorem g2_card_loop_complete {parseDate : String → Option Int} {start_d end_d : Int}
    {cs : List Container} {s : HState} {c : Container} {r : ReviewRecord}
    (hc : c ∈ cs) (hp : (g2_process parseDate start_d end_d c).1 = some r) :
    r ∈ (g2_card_loop parseDate start_d end_d cs s).collected := by
  induction cs generalizing s with
  | nil => exact absurd hc (List.not_mem_nil c)
  | cons c0 rest ih =>
    simp only [g2_card_loop]
    rcases List.mem_cons.mp hc with rfl | hmem
    · apply g2_card_loop_mono
      rw [hp]
      exact List.mem_append_right _ (by simp)
    · exact ih hmem

theorem g2_card_loop_mem {parseDate : String → Option Int} {start_d end_d : Int}
    {cs : List Container} {s : HState} {r : ReviewRecord}
    (h : r ∈ (g2_card_loop parseDate start_d end_d cs s).collected) :
    r ∈ s.collected ∨ ∃ c ∈ cs, (g2_process parseDate start_d end_d c).1 = some r := by
  induction cs generalizing s with
  | nil => exact Or.inl h
  | cons c rest ih =>
    simp only [g2_card_loop] at h
    rcases ih h with hin | ⟨c1, hc1, hp1⟩
    · rcases List.mem_append.mp hin with h1 | h2
      · exact Or.inl h1
      · refine Or.inr ⟨c, List.mem_cons_self c rest, ?_⟩
        rcases hp : (g2_process parseDate start_d end_d c).1 with _ | r1
        · rw [hp] at h2; simp at h2
        · rw [hp] at h2; simp at h2; rw [h2]
    · exact Or.inr ⟨c1, List.mem_cons_of_mem c hc1, hp1⟩

theorem g2_card_loop_length {parseDate : String → Option Int} {start_d end_d : Int}
    {cs : List Container} {s : HState} :
    (g2_card_loop parseDate start_d end_d cs s).collected.length ≤
      s.collected.length + cs.length := by
  induction cs generalizing s with
  | nil => simp [g2_card_loop]
  | cons c rest ih =>
    simp only [g2_card_loop]
    calc (g2_card_loop parseDate start_d end_d rest
            ⟨s.collected ++ (g2_process parseDate start_d end_d c).1.toList,
             s.stopOld || (g2_process parseDate start_d end_d c).2⟩).collected.length
        ≤ (s.collected ++ (g2_process parseDate start_d end_d c).1.toList).length
            + rest.length := ih
      _ ≤ s.collected.length + (c :: rest).length := by
            simp only [List.length_append, List.length_cons]
            have : (g2_process parseDate start_d end_d c).1.toList.length ≤ 1 := by
              cases (g2_process parseDate start_d end_d c).1 <;> simp
            omega

theorem tr_card_loop_mono {parseDate : String → Option Int} {start_d end_d : Int}
    {cs : List Container} {acc : List ReviewRecord} {r : ReviewRecord} (h : r ∈ acc) :
    r ∈ tr_card_loop parseDate start_d end_d cs acc := by
  induction cs generalizing acc with
  | nil => exact h
  | cons c rest ih =>
    simp only [tr_card_loop]
    exact ih (List.mem_append_left _ h)

theorem tr_card_loop_mem {parseDate : String → Option Int} {start_d end_d : Int}
    {cs : List Container} {acc : List ReviewRecord} {r : ReviewRecord}
    (h : r ∈ tr_card_loop parseDate start_d end_d cs acc) :
    r ∈ acc ∨ ∃ c ∈ cs, tr_process parseDate start_d end_d c = some r := by
  induction cs generalizing acc with
  | nil => exact Or.inl h
  | cons c rest ih =>
    simp only [tr_card_loop] at h
    rcases ih h with hin | ⟨c1, hc1, hp1⟩
    · rcases List.mem_append.mp hin with h1 | h2
      · exact Or.inl h1
      · refine Or.inr ⟨c, List.mem_cons_self c rest, ?_⟩
        rcases hp : tr_process parseDate start_d end_d c with _ | r1
        · rw [hp] at h2; simp at h2
        · rw [hp] at h2; simp at h2; rw [h2]
    · exact Or.inr ⟨c1, List.mem_cons_of_mem c hc1, hp1⟩

theorem tr_card_loop_length {parseDate : String → Option Int} {start_d end_d : Int}
    {cs : List Container} {acc : List ReviewRecord} :
    (tr_card_loop parseDate start_d end_d cs acc).length ≤ acc.length + cs.length := by
  induction cs generalizing acc with
  | nil => simp [tr_card_loop]
  | cons c rest ih =>
    simp only [tr_card_loop]
    calc (tr_card_loop parseDate start_d end_d rest
            (acc ++ (tr_process parseDate start_d end_d c).toList)).length
        ≤ (acc ++ (tr_process parseDate start_d end_d c).toList).length
            + rest.length := ih
      _ ≤ acc.length + (c :: rest).length := by
            simp only [List.length_append, List.length_cons]
            have : (tr_process parseDate start_d end_d c).toList.length ≤ 1 := by
              cases tr_process parseDate start_d end_d c <;> simp
            omega

/-! Facts about the page loops. -/

theorem g2_go_mem {parseDate : String → Option Int} {start_d end_d : Int}
    {pages : Nat → Page} :
    ∀ {fuel pageNo : Nat} {s : HState} {res : HarvestResult},
      g2_go parseDate start_d end_d pages fuel pageNo s = .ok res →
      ∀ r ∈ res.records, r ∈ s.collected ∨
        ∃ q c, c ∈ (pages q).cards.take 60 ∧
          (g2_process parseDate start_d end_d c).1 = some r := by
  intro fuel
  induction fuel with
  | zero =>
    intro pageNo s res h r hr
    simp only [g2_go] at h
    obtain rfl := Except.ok.inj h
    exact Or.inl hr
  | succ fuel ih =>
    intro pageNo s res h r hr
    simp only [g2_go] at h
    split at h
    next => exact absurd h (by simp)
    next =>
      split at h
      next =>
        obtain rfl := Except.ok.inj h
        exact Or.inl hr
      next =>
        split at h
        next =>
          obtain rfl := Except.ok.inj h
          exact Or.inl hr
        next =>
          split at h
          next =>
            obtain rfl := Except.ok.inj h
            rcases g2_card_loop_mem hr with h1 | ⟨c, hc, hp⟩
            · exact Or.inl h1
            · exact Or.inr ⟨pageNo, c, hc, hp⟩
          next =>
            rcases ih h r hr with h1 | h2
            · rcases g2_card_loop_mem h1 with h3 | ⟨c, hc, hp⟩
              · exact Or.inl h3
              · exact Or.inr ⟨pageNo, c, hc, hp⟩
            · exact Or.inr h2

theorem g2_go_bounds {parseDate : String → Option Int} {start_d end_d : Int}
    {pages : Nat → Page} :
    ∀ {fuel pageNo : Nat} {s : HState} {res : HarvestResult},
      g2_go parseDate start_d end_d pages fuel pageNo s = .ok res →
      res.pagesVisited ≤ (pageNo - 1) + fuel ∧
        res.records.length ≤ s.collected.length + 60 * fuel := by
  intro fuel
  induction fuel with
  | zero =>
    intro pageNo s res h
    simp only [g2_go] at h
    obtain rfl := Except.ok.inj h
    exact ⟨le_refl _, by show s.collected.length ≤ _; omega⟩
  | succ fuel ih =>
    intro pageNo s res h
    simp only [g2_go] at h
    split at h
    next => exact absurd h (by simp)
    next =>
      have hcard : (g2_card_loop parseDate start_d end_d
          ((pages pageNo).cards.take 60) s).collected.length ≤
            s.collected.length + 60 := by
        have h1 := @g2_card_loop_length parseDate start_d end_d
          ((pages pageNo).cards.take 60) s
        have h2 : ((pages pageNo).cards.take 60).length ≤ 60 := by
          simpa using List.length_take_le 60 (pages pageNo).cards
        omega
      split at h
      next =>
        obtain rfl := Except.ok.inj h
        refine ⟨?_, ?_⟩
        · show pageNo ≤ (pageNo - 1) + (fuel + 1); omega
        · show s.collected.length ≤ s.collected.length + 60 * (fuel + 1); omega
      next =>
        split at h
        next =>
          obtain rfl := Except.ok.inj h
          refine ⟨?_, ?_⟩
          · show pageNo ≤ (pageNo - 1) + (fuel + 1); omega
          · show s.collected.length ≤ s.collected.length + 60 * (fuel + 1); omega
        next =>
          split at h
          next =>
            obtain rfl := Except.ok.inj h
            refine ⟨?_, ?_⟩
            · show pageNo ≤ (pageNo - 1) + (fuel + 1); omega
            · show (g2_card_loop parseDate start_d end_d
                  ((pages pageNo).cards.take 60) s).collected.length ≤
                    s.collected.length + 60 * (fuel + 1)
              omega
          next =>
            obtain ⟨hv, hl⟩ := ih h
            refine ⟨by omega, ?_⟩
            calc res.records.length
                ≤ (g2_card_loop parseDate start_d end_d
                    ((pages pageNo).cards.take 60) s).collected.length
                      + 60 * fuel := hl
              _ ≤ s.collected.length + 60 * (fuel + 1) := by omega

theorem g2_go_reason {parseDate : String → Option Int} {start_d end_d : Int}
    {pages : Nat → Page} :
    ∀ {fuel pageNo : Nat} {s : HState} {res : HarvestResult},
      g2_go parseDate start_d end_d pages fuel pageNo s = .ok res →
      (res.reason = .blocked → detect_blocked (pages res.pagesVisited).html = true) ∧
      (res.reason = .noContainers →
        detect_blocked (pages res.pagesVisited).html = false ∧
          g2_found_any (pages res.pagesVisited) = false) := by
  intro fuel
  induction fuel with
  | zero =>
    intro pageNo s res h
    simp only [g2_go] at h
    obtain rfl := Except.ok.inj h
    exact ⟨fun hk => (nomatch hk), fun hk => (nomatch hk)⟩
  | succ fuel ih =>
    intro pageNo s res h
    simp only [g2_go] at h
    split at h
    next => exact absurd h (by simp)
    next =>
      split at h
      next hb =>
        obtain rfl := Except.ok.inj h
        exact ⟨fun _ => hb, fun hk => (nomatch hk)⟩
      next hb =>
        split at h
        next hf =>
          obtain rfl := Except.ok.inj h
          refine ⟨fun hk => (nomatch hk), fun _ => ⟨?_, ?_⟩⟩
          · show detect_blocked (pages pageNo).html = false
            simpa using hb
          · show g2_found_any (pages pageNo) = false
            simpa using hf
        next =>
          split at h
          next =>
            obtain rfl := Except.ok.inj h
            exact ⟨fun hk => (nomatch hk), fun hk => (nomatch hk)⟩
          next => exact ih h

theorem g2_go_dateBoundary {parseDate : String → Option Int} {start_d end_d : Int}
    {pages : Nat → Page} :
    ∀ {fuel pageNo : Nat} {s : HState} {res : HarvestResult},
      s.stopOld = false →
      g2_go parseDate start_d end_d pages fuel pageNo s = .ok res →
      res.reason = .dateBoundary →
      ∃ q c dv, q ≤ res.pagesVisited ∧ c ∈ (pages q).cards.take 60 ∧
        containerDate parseDate c g2_date_selectors = some dv ∧ dv < start_d := by
  intro fuel
  induction fuel with
  | zero =>
    intro pageNo s res hs h hres
    simp only [g2_go] at h
    obtain rfl := Except.ok.inj h
    exact nomatch hres
  | succ fuel ih =>
    intro pageNo s res hs h hres
    simp only [g2_go] at h
    split at h
    next => exact absurd h (by simp)
    next =>
      split at h
      next =>
        obtain rfl := Except.ok.inj h
        exact nomatch hres
      next =>
        split at h
        next =>
          obtain rfl := Except.ok.inj h
          exact nomatch hres
        next =>
          split at h
          next hstop =>
            obtain rfl := Except.ok.inj h
            rw [g2_card_loop_stopOld, hs, Bool.false_or, List.any_eq_true] at hstop
            obtain ⟨c, hc, hflag⟩ := hstop
            obtain ⟨dv, hd, hlt⟩ := g2_process_flag_iff.mp hflag
            exact ⟨pageNo, c, dv, le_refl _, hc, hd, hlt⟩
          next hstop =>
            have hs2 : (g2_card_loop parseDate start_d end_d
                ((pages pageNo).cards.take 60) s).stopOld = false := by
              simpa using hstop
            exact ih hs2 h hres

theorem tr_go_mem {parseDate : String → Option Int} {start_d end_d : Int}
    {pages : Nat → Page} :
    ∀ {fuel pageNo : Nat} {acc : List ReviewRecord} {res : HarvestResult},
      tr_go parseDate start_d end_d pages fuel pageNo acc = .ok res →
      ∀ r ∈ res.records, r ∈ acc ∨
        ∃ q c, c ∈ (pages q).cards.take 60 ∧
          tr_process parseDate start_d end_d c = some r := by
  intro fuel
  induction fuel with
  | zero =>
    intro pageNo acc res h r hr
    simp only [tr_go] at h
    obtain rfl := Except.ok.inj h
    exact Or.inl hr
  | succ fuel ih =>
    intro pageNo acc res h r hr
    simp only [tr_go] at h
    split at h
    next => exact absurd h (by simp)
    next =>
      split at h
      next =>
        obtain rfl := Except.ok.inj h
        exact Or.inl hr
      next =>
        rcases ih h r hr with h1 | h2
        · rcases tr_card_loop_mem h1 with h3 | ⟨c, hc, hp⟩
          · exact Or.inl h3
          · exact Or.inr ⟨pageNo, c, hc, hp⟩
        · exact Or.inr h2

theorem tr_go_bounds {parseDate : String → Option Int} {start_d end_d : Int}
    {pages : Nat → Page} :
    ∀ {fuel pageNo : Nat} {acc : List ReviewRecord} {res : HarvestResult},
      tr_go parseDate start_d end_d pages fuel pageNo acc = .ok res →
      res.pagesVisited ≤ (pageNo - 1) + fuel ∧
        res.records.length ≤ acc.length + 60 * fuel := by
  intro fuel
  induction fuel with
  | zero =>
    intro pageNo acc res h
    simp only [tr_go] at h
    obtain rfl := Except.ok.inj h
    exact ⟨le_refl _, by show acc.length ≤ _; omega⟩
  | succ fuel ih =>
    intro pageNo acc res h
    simp only [tr_go] at h
    split at h
    next => exact absurd h (by simp)
    next =>
      have hcard : (tr_card_loop parseDate start_d end_d
          ((pages pageNo).cards.take 60) acc).length ≤ acc.length + 60 := by
        have h1 := @tr_card_loop_length parseDate start_d end_d
          ((pages pageNo).cards.take 60) acc
        have h2 : ((pages pageNo).cards.take 60).length ≤ 60 := by
          simpa using List.length_take_le 60 (pages pageNo).cards
        omega
      split at h
      next =>
        obtain rfl := Except.ok.inj h
        refine ⟨?_, ?_⟩
        · show pageNo ≤ (pageNo - 1) + (fuel + 1); omega
        · show acc.length ≤ acc.length + 60 * (fuel + 1); omega
      next =>
        obtain ⟨hv, hl⟩ := ih h
        refine ⟨by omega, ?_⟩
        calc res.records.length
            ≤ (tr_card_loop parseDate start_d end_d
                ((pages pageNo).cards.take 60) acc).length + 60 * fuel := hl
          _ ≤ acc.length + 60 * (fuel + 1) := by omega

theorem g2_nav_error_iff {pg : Page} :
    g2_nav pg = .error () ↔ pg.navDomTimeout = true ∧ pg.navLoadTimeout = true := by
  unfold g2_nav
  cases hd : pg.navDomTimeout <;> cases hl : pg.navLoadTimeout <;> simp

theorem tr_nav_error_iff {pg : Page} :
    tr_nav pg = .error () ↔ pg.navDomTimeout = true := by
  unfold tr_nav
  cases hd : pg.navDomTimeout <;> simp

theorem g2_run_navfatal {parseDate : String → Option Int} {start_d end_d : Int}
    {max_pages : Nat} {pages : Nat → Page} (hmp : 1 ≤ max_pages)
    (h1 : (pages 1).navDomTimeout = true) (h2 : (pages 1).navLoadTimeout = true) :
    scrape_g2 parseDate start_d end_d max_pages pages = .error () := by
  obtain ⟨k, rfl⟩ : ∃ k, max_pages = k + 1 := ⟨max_pages - 1, by omega⟩
  simp [scrape_g2, g2_go, g2_nav, h1, h2]

theorem tr_run_navfatal {parseDate : String → Option Int} {start_d end_d : Int}
    {max_pages : Nat} {pages : Nat → Page} (hmp : 1 ≤ max_pages)
    (h1 : (pages 1).navDomTimeout = true) :
    scrape_trustradius parseDate start_d end_d max_pages pages = .error () := by
  obtain ⟨k, rfl⟩ : ∃ k, max_pages = k + 1 := ⟨max_pages - 1, by omega⟩
  simp [scrape_trustradius, tr_go, tr_nav, h1]

/-! The date-boundary behaviour of the G2 loop. -/

/-- A page the G2 loop passes through without stopping: navigation
succeeds, the markup is not classified blocked, the probe finds a
container, and no selected card parses to a date before start_d. -/
def g2_page_clean (parseDate : String → Option Int) (start_d : Int) (pg : Page) : Prop :=
  g2_nav pg = .ok () ∧ detect_blocked pg.html = false ∧ g2_found_any pg = true ∧
    ∀ c ∈ pg.cards.take 60, ∀ dv,
      containerDate parseDate c g2_date_selectors = some dv → start_d ≤ dv

/-- A page on which the G2 loop crosses the date boundary: the page is
processed (navigation ok, not blocked, probe found containers) and some
selected card parses to a date before start_d. -/
def g2_page_boundary (parseDate : String → Option Int) (start_d : Int) (pg : Page) : Prop :=
  g2_nav pg = .ok () ∧ detect_blocked pg.html = false ∧ g2_found_any pg = true ∧
    ∃ c ∈ pg.cards.take 60, ∃ dv,
      containerDate parseDate c g2_date_selectors = some dv ∧ dv < start_d

theorem g2_go_step {parseDate : String → Option Int} {start_d end_d : Int}
    {pages : Nat → Page} {fuel pageNo : Nat} {s : HState}
    (hnav : g2_nav (pages pageNo) = .ok ())
    (hnb : detect_blocked (pages pageNo).html = false)
    (hfound : g2_found_any (pages pageNo) = true) :
    g2_go parseDate start_d end_d pages (fuel + 1) pageNo s =
      if (g2_card_loop parseDate start_d end_d
            ((pages pageNo).cards.take 60) s).stopOld = true
      then .ok ⟨(g2_card_loop parseDate start_d end_d
                  ((pages pageNo).cards.take 60) s).collected, pageNo, .dateBoundary⟩
      else g2_go parseDate start_d end_d pages fuel (pageNo + 1)
             (g2_card_loop parseDate start_d end_d ((pages pageNo).cards.take 60) s) := by
  simp [g2_go, hnav, hnb, hfound]

theorem g2_go_boundary {parseDate : String → Option Int} {start_d end_d : Int}
    {pages : Nat → Page} {p : Nat}
    (hbnd : g2_page_boundary parseDate start_d (pages p)) :
    ∀ fuel pageNo s, s.stopOld = false → pageNo ≤ p → p < pageNo + fuel →
      (∀ q, pageNo ≤ q → q < p → g2_page_clean parseDate start_d (pages q)) →
      ∃ res : HarvestResult,
        res.pagesVisited = p ∧ res.reason = .dateBoundary ∧
        (∀ c ∈ (pages p).cards.take 60, ∀ r,
            (g2_process parseDate start_d end_d c).1 = some r → r ∈ res.records) ∧
        ∀ pages2 : Nat → Page, (∀ q, pageNo ≤ q → q ≤ p → pages2 q = pages q) →
          g2_go parseDate start_d end_d pages2 fuel pageNo s = .ok res := by
  obtain ⟨hnav, hnb, hfound, c0, hc0, dv0, hdv0, hlt0⟩ := hbnd
  intro fuel
  induction fuel with
  | zero =>
    intro pageNo s hs h1 h2 hclean
    omega
  | succ fuel ih =>
    intro pageNo s hs hle hlt hclean
    rcases eq_or_lt_of_le hle with rfl | hplt
    · have hstop : (g2_card_loop parseDate start_d end_d
          ((pages pageNo).cards.take 60) s).stopOld = true := by
        rw [g2_card_loop_stopOld, hs, Bool.false_or, List.any_eq_true]
        exact ⟨c0, hc0, g2_process_flag_iff.mpr ⟨dv0, hdv0, hlt0⟩⟩
      refine ⟨⟨(g2_card_loop parseDate start_d end_d
          ((pages pageNo).cards.take 60) s).collected, pageNo, .dateBoundary⟩,
          rfl, rfl, ?_, ?_⟩
      · intro c hc r hr
        exact g2_card_loop_complete hc hr
      · intro pages2 hagree
        have hpg : pages2 pageNo = pages pageNo := hagree _ (le_refl _) (le_refl _)
        have hnav2 : g2_nav (pages2 pageNo) = .ok () := by rw [hpg]; exact hnav
        have hnb2 : detect_blocked (pages2 pageNo).html = false := by
          rw [hpg]; exact hnb
        have hfound2 : g2_found_any (pages2 pageNo) = true := by rw [hpg]; exact hfound
        rw [g2_go_step hnav2 hnb2 hfound2, hpg, if_pos hstop]
    · have hcl := hclean pageNo (le_refl _) hplt
      obtain ⟨hnavq, hnbq, hfoundq, hnold⟩ := hcl
      have hs2 : (g2_card_loop parseDate start_d end_d
          ((pages pageNo).cards.take 60) s).stopOld = false := by
        cases hb : (g2_card_loop parseDate start_d end_d
            ((pages pageNo).cards.take 60) s).stopOld with
        | false => rfl
        | true =>
          rw [g2_card_loop_stopOld, hs, Bool.false_or, List.any_eq_true] at hb
          obtain ⟨c, hc, hflag⟩ := hb
          obtain ⟨dv, hdvq, hltq⟩ := g2_process_flag_iff.mp hflag
          exact absurd (hnold c hc dv hdvq) (by omega)
      obtain ⟨res, hv, hrr, hmem, hrun⟩ := ih (pageNo + 1)
        (g2_card_loop parseDate start_d end_d ((pages pageNo).cards.take 60) s)
        hs2 hplt (by omega) (fun q hq1 hq2 => hclean q (by omega) hq2)
      refine ⟨res, hv, hrr, hmem, ?_⟩
      intro pages2 hagree
      have hpg : pages2 pageNo = pages pageNo :=
        hagree _ (le_refl _) (le_of_lt hplt)
      have hnav2 : g2_nav (pages2 pageNo) = .ok () := by rw [hpg]; exact hnavq
      have hnb2 : detect_blocked (pages2 pageNo).html = false := by
        rw [hpg]; exact hnbq
      have hfound2 : g2_found_any (pages2 pageNo) = true := by rw [hpg]; exact hfoundq
      rw [g2_go_step hnav2 hnb2 hfound2, hpg, if_neg (by simp [hs2])]
      exact hrun pages2 (fun q hq1 hq2 => hagree q (by omega) hq2)

/-! Concrete fixtures used by the witnesses and counterexamples. -/

/-- A tiny concrete date parser used in the fixtures. -/
def pdW : String → Option Int := fun s =>
  if s = "d3" then some 3
  else if s = "d5" then some 5
  else if s = "d15" then some 15
  else if s = "d25" then some 25
  else none

/-- A review body longer than 20 characters. -/
def bodyW : String := "this review body is long enough"

/-- A concrete container whose body selectors return bodyW and whose time
selector returns the given date token. -/
def cardW (ds : String) : Container :=
  { query := fun sel =>
      if sel = "div[itemprop=\x27reviewBody\x27]" then some bodyW
      else if sel = "p" then some bodyW
      else if sel = "time" then some ds
      else if sel = "h3" then some "Title" else none,
    present := fun _ => false,
    attr := fun _ _ => none }

/-- A concrete container with a body but no date text anywhere. -/
def cardNoDateW : Container :=
  { query := fun sel =>
      if sel = "div[itemprop=\x27reviewBody\x27]" then some bodyW
      else if sel = "p" then some bodyW
      else none,
    present := fun _ => false,
    attr := fun _ _ => none }

/-- The record that cardW "d15" yields in the G2 adapter. -/
def recG2W : ReviewRecord := ⟨"G2", "Title", bodyW, 15, none⟩

/-- The record that cardW "d15" yields in the TrustRadius adapter. -/
def recTrW : ReviewRecord := ⟨"TrustRadius", "Title", bodyW, 15, none⟩

/-- An ordinary page holding one in-window review. -/
def pageW : Page := ⟨false, false, "fine", fun _ => 1, [cardW "d15"]⟩

def pagesW : Nat → Page := fun _ => pageW

/-- A page whose first card is in range and whose second card is older
than the window start. -/
def pageBndW : Page := ⟨false, false, "fine", fun _ => 1, [cardW "d15", cardW "d5"]⟩

def pagesBndW : Nat → Page := fun _ => pageBndW

/-- A blocked page with no containers. -/
def pageBlkW : Page := ⟨false, false, "Access Denied interstitial", fun _ => 0, []⟩

def pagesBlkW : Nat → Page := fun _ => pageBlkW

/-- TrustRadius pages in strictly descending date order whose first page
already lies entirely before the window start. -/
def pagesTrOldW : Nat → Page := fun n =>
  if n = 1 then ⟨false, false, "fine", fun _ => 1, [cardW "d5"]⟩
  else ⟨false, false, "fine", fun _ => 1, [cardW "d3"]⟩

/-- Pages whose first navigation times out but whose retry would succeed. -/
def pagesNavW : Nat → Page := fun _ => ⟨true, false, "fine", fun _ => 1, [cardW "d15"]⟩

/-- Pages whose navigation times out under both wait strategies. -/
def pagesNav2W : Nat → Page := fun _ => ⟨true, true, "fine", fun _ => 1, [cardW "d15"]⟩

/-- A 20-character review body. -/
def s20W : String := "aaaaaaaaaaaaaaaaaaaa"

/-- A container whose every body selector yields exactly 20 characters. -/
def card20W : Container :=
  { query := fun sel =>
      if sel = "div[itemprop=\x27reviewBody\x27]" then some s20W
      else if sel = "p" then some s20W
      else if sel = "time" then some "d15" else none,
    present := fun _ => false,
    attr := fun _ _ => none }


/-! Claim theorems. -/

/-- C1: in both adapters every emitted record has a date lying inclusively
between start_d and end_d, and a container whose date text does not parse
(parsed date none) never yields an output record. -/
theorem C1_date_window_invariant :
    (∀ (parseDate : String → Option Int) (start_d end_d : Int) (max_pages : Nat)
       (pages : Nat → Page) (res : HarvestResult),
       scrape_g2 parseDate start_d end_d max_pages pages = .ok res →
       ∀ r ∈ res.records, start_d ≤ r.date ∧ r.date ≤ end_d) ∧
    (∀ (parseDate : String → Option Int) (start_d end_d : Int) (max_pages : Nat)
       (pages : Nat → Page) (res : HarvestResult),
       scrape_trustradius parseDate start_d end_d max_pages pages = .ok res →
       ∀ r ∈ res.records, start_d ≤ r.date ∧ r.date ≤ end_d) ∧
    (∀ (parseDate : String → Option Int) (start_d end_d : Int) (c : Container),
       containerDate parseDate c g2_date_selectors = none →
       (g2_process parseDate start_d end_d c).1 = none) ∧
    (∀ (parseDate : String → Option Int) (start_d end_d : Int) (c : Container),
       containerDate parseDate c tr_date_selectors = none →
       tr_process parseDate start_d end_d c = none) := by
  refine ⟨?_, ?_, ?_, ?_⟩
  · intro parseDate start_d end_d max_pages pages res h r hr
    rcases g2_go_mem h r hr with h1 | ⟨q, c, hc, hp⟩
    · exact absurd h1 (List.not_mem_nil r)
    · obtain ⟨-, h1, h2, -, -⟩ := g2_process_some hp
      exact ⟨h1, h2⟩
  · intro parseDate start_d end_d max_pages pages res h r hr
    rcases tr_go_mem h r hr with h1 | ⟨q, c, hc, hp⟩
    · exact absurd h1 (List.not_mem_nil r)
    · obtain ⟨-, h1, h2, -, -, -⟩ := tr_process_some hp
      exact ⟨h1, h2⟩
  · intro parseDate start_d end_d c hd
    exact g2_process_none_date hd
  · intro parseDate start_d end_d c hd
    exact tr_process_none_date hd

/-- Witness for C1 at a concrete run and a concrete dateless container. -/
theorem C1_date_window_invariant_witness :
    ((10 : Int) ≤ recG2W.date ∧ recG2W.date ≤ 20) ∧
      (g2_process pdW 10 20 cardNoDateW).1 = none :=
  ⟨C1_date_window_invariant.1 pdW 10 20 1 pagesW ⟨[recG2W], 1, .maxPages⟩ rfl recG2W
      (by decide),
   C1_date_window_invariant.2.2.1 pdW 10 20 cardNoDateW rfl⟩

/-- C2 counterexample: the TrustRadius adapter has no date-boundary stop:
with reviews in strictly descending date order and the first review older
than start_d already on page 1, the run still visits page 2 instead of
halting after the page with the old review. -/
theorem C2_counterexample :
    containerDate pdW (cardW "d5") tr_date_selectors = some 5 ∧ (5 : Int) < 10 ∧
    (pagesTrOldW 1).cards = [cardW "d5"] ∧
    scrape_trustradius pdW 10 20 2 pagesTrOldW = .ok ⟨[], 2, .maxPages⟩ ∧
    (2 : Nat) ≠ 1 :=
  ⟨rfl, by decide, rfl, rfl, by decide⟩

/-- C2 (amended, restricted to the G2 adapter): a card whose parsed date
is earlier than start_d is skipped and sets the stop flag; when page p is
the first page carrying such a card and every earlier page is processed
without stopping, the run halts after page p with reason dateBoundary,
keeps every record produced from the cards of page p, and its result does
not depend on any page after p. -/
theorem C2_g2_date_boundary {parseDate : String → Option Int} {start_d end_d : Int}
    {max_pages p : Nat} {pages : Nat → Page}
    (hp1 : 1 ≤ p) (hpm : p ≤ max_pages)
    (hclean : ∀ q, 1 ≤ q → q < p → g2_page_clean parseDate start_d (pages q))
    (hbnd : g2_page_boundary parseDate start_d (pages p)) :
    (∀ c dv, containerDate parseDate c g2_date_selectors = some dv → dv < start_d →
        g2_process parseDate start_d end_d c = (none, true)) ∧
    ∃ res : HarvestResult,
      scrape_g2 parseDate start_d end_d max_pages pages = .ok res ∧
      res.pagesVisited = p ∧ res.reason = .dateBoundary ∧
      (∀ c ∈ (pages p).cards.take 60, ∀ r,
          (g2_process parseDate start_d end_d c).1 = some r → r ∈ res.records) ∧
      ∀ pages2 : Nat → Page, (∀ q, 1 ≤ q → q ≤ p → pages2 q = pages q) →
        scrape_g2 parseDate start_d end_d max_pages pages2 = .ok res := by
  refine ⟨fun c dv hd hlt => g2_process_old hd hlt, ?_⟩
  obtain ⟨res, hv, hr, hmem, hrun⟩ :=
    g2_go_boundary hbnd max_pages 1 ⟨[], false⟩ rfl hp1 (by omega) hclean
  exact ⟨res, hrun pages (fun q h1 h2 => rfl), hv, hr, hmem,
    fun pages2 hagree => hrun pages2 hagree⟩

/-- Witness for C2 at a concrete boundary run whose first page carries an
in-window card followed by an old card. -/
theorem C2_g2_date_boundary_witness :
    g2_process pdW 10 20 (cardW "d5") = (none, true) ∧
    ∃ res : HarvestResult, scrape_g2 pdW 10 20 3 pagesBndW = .ok res ∧
      res.pagesVisited = 1 ∧ res.reason = .dateBoundary := by
  have hbnd : g2_page_boundary pdW 10 (pagesBndW 1) := by
    refine ⟨rfl, rfl, rfl, cardW "d5", ?_, 5, rfl, by decide⟩
    show cardW "d5" ∈ [cardW "d15", cardW "d5"]
    exact List.mem_cons_of_mem _ (List.mem_cons_self _ _)
  obtain ⟨hskip, res, hrun, hv, hr, -, -⟩ :=
    @C2_g2_date_boundary pdW 10 20 3 1 pagesBndW (le_refl 1) (by omega)
      (fun q h1 h2 => absurd (lt_of_le_of_lt h1 h2) (lt_irrefl 1)) hbnd
  exact ⟨hskip (cardW "d5") 5 rfl (by decide), res, hrun, hv, hr⟩

/-- C3 counterexample: in the TrustRadius adapter a single navigation
timeout is already fatal: page 1 times out under the DOM-content wait,
the full-load retry would have succeeded, yet the run propagates the
error instead of retrying. -/
theorem C3_counterexample :
    (pagesNavW 1).navDomTimeout = true ∧ (pagesNavW 1).navLoadTimeout = false ∧
    scrape_trustradius pdW 10 20 2 pagesNavW = .error () :=
  ⟨rfl, rfl, rfl⟩

/-- C3 (amended): only the G2 adapter recovers a first navigation timeout
with one full-load retry, a second timeout being fatal; the TrustRadius
adapter never retries, so its first navigation timeout terminates the
run. -/
theorem C3_nav_retry :
    (∀ pg : Page, g2_nav pg = .error () ↔
        pg.navDomTimeout = true ∧ pg.navLoadTimeout = true) ∧
    (∀ pg : Page, tr_nav pg = .error () ↔ pg.navDomTimeout = true) ∧
    (∀ (parseDate : String → Option Int) (start_d end_d : Int) (max_pages : Nat)
       (pages : Nat → Page), 1 ≤ max_pages →
       (pages 1).navDomTimeout = true → (pages 1).navLoadTimeout = true →
       scrape_g2 parseDate start_d end_d max_pages pages = .error ()) ∧
    (∀ (parseDate : String → Option Int) (start_d end_d : Int) (max_pages : Nat)
       (pages : Nat → Page), 1 ≤ max_pages → (pages 1).navDomTimeout = true →
       scrape_trustradius parseDate start_d end_d max_pages pages = .error ()) :=
  ⟨fun _ => g2_nav_error_iff, fun _ => tr_nav_error_iff,
   fun _ _ _ _ _ hmp h1 h2 => g2_run_navfatal hmp h1 h2,
   fun _ _ _ _ _ hmp h1 => tr_run_navfatal hmp h1⟩

/-- Witness for C3: a concrete double-timeout G2 run fails and a concrete
single-timeout TrustRadius run fails. -/
theorem C3_nav_retry_witness :
    scrape_g2 pdW 10 20 2 pagesNav2W = .error () ∧
    scrape_trustradius pdW 10 20 2 pagesNavW = .error () :=
  ⟨C3_nav_retry.2.2.1 pdW 10 20 2 pagesNav2W (by decide) rfl rfl,
   C3_nav_retry.2.2.2 pdW 10 20 2 pagesNavW (by decide) rfl⟩

/-- C4 counterexample: a page that is both blocked and container-free
halts with the blocked reason: the blocked-page check is consulted before
the no-containers check, contrary to the claim. -/
theorem C4_counterexample :
    detect_blocked (pagesBlkW 1).html = true ∧
    g2_found_any (pagesBlkW 1) = false ∧
    scrape_g2 pdW 10 20 5 pagesBlkW = .ok ⟨[], 1, .blocked⟩ ∧
    StopReason.blocked ≠ StopReason.noContainers :=
  ⟨rfl, rfl, rfl, by decide⟩

/-- C4 (amended): the blocked-page check has priority in the G2 loop: a
blocked stop means the halting page was classified blocked (regardless of
the probe), and a no-containers stop only arises on a page that is not
classified blocked and where the probe found no container. -/
theorem C4_blocked_priority
    (parseDate : String → Option Int) (start_d end_d : Int) (max_pages : Nat)
    (pages : Nat → Page) (res : HarvestResult)
    (h : scrape_g2 parseDate start_d end_d max_pages pages = .ok res) :
    (res.reason = .blocked → detect_blocked (pages res.pagesVisited).html = true) ∧
    (res.reason = .noContainers →
      detect_blocked (pages res.pagesVisited).html = false ∧
        g2_found_any (pages res.pagesVisited) = false) :=
  g2_go_reason h

/-- Witness for C4 at the concrete blocked run. -/
theorem C4_blocked_priority_witness : detect_blocked (pagesBlkW 1).html = true :=
  (C4_blocked_priority pdW 10 20 5 pagesBlkW ⟨[], 1, .blocked⟩ rfl).1 rfl

/-- C5 counterexample: a non-empty 20-character body is rejected by the
body chain of both adapters, so 20 characters is not an acceptable
length. -/
theorem C5_counterexample :
    card20W.query "div[itemprop=\x27reviewBody\x27]" = some s20W ∧
    s20W.length = 20 ∧ s20W ≠ "" ∧
    firstBody card20W g2_body_selectors = none ∧
    firstBody card20W tr_body_selectors = none :=
  ⟨rfl, by decide, by decide, rfl, rfl⟩

/-- C5 (amended): the body chain accepts a candidate text exactly when it
is strictly longer than 20 characters (an earlier matching candidate
winning), so every record emitted by either adapter has a body of at
least 21 characters. -/
theorem C5_body_length :
    (∀ (c : Container) (sels : List String) (t : String),
        firstBody c sels = some t → 20 < t.length) ∧
    (∀ (c : Container) (sel : String) (rest : List String) (t : String),
        c.query sel = some t → 20 < t.length → firstBody c (sel :: rest) = some t) ∧
    (∀ (parseDate : String → Option Int) (start_d end_d : Int) (max_pages : Nat)
       (pages : Nat → Page) (res : HarvestResult),
       scrape_g2 parseDate start_d end_d max_pages pages = .ok res →
       ∀ r ∈ res.records, 21 ≤ r.review.length) ∧
    (∀ (parseDate : String → Option Int) (start_d end_d : Int) (max_pages : Nat)
       (pages : Nat → Page) (res : HarvestResult),
       scrape_trustradius parseDate start_d end_d max_pages pages = .ok res →
       ∀ r ∈ res.records, 21 ≤ r.review.length) := by
  refine ⟨fun c sels t h => firstBody_length h,
    fun c sel rest t hq hl => firstBody_head hq hl, ?_, ?_⟩
  · intro parseDate start_d end_d max_pages pages res h r hr
    rcases g2_go_mem h r hr with h1 | ⟨q, c, hc, hp⟩
    · exact absurd h1 (List.not_mem_nil r)
    · obtain ⟨-, -, -, hlen, -⟩ := g2_process_some hp
      omega
  · intro parseDate start_d end_d max_pages pages res h r hr
    rcases tr_go_mem h r hr with h1 | ⟨q, c, hc, hp⟩
    · exact absurd h1 (List.not_mem_nil r)
    · obtain ⟨-, -, -, hlen, -, -⟩ := tr_process_some hp
      omega

/-- Witness for C5: the chain accepts a concrete 31-character body at the
head selector, and a concrete run emits a record of length at least 21. -/
theorem C5_body_length_witness :
    firstBody (cardW "d15") g2_body_selectors = some bodyW ∧
      21 ≤ recG2W.review.length :=
  ⟨C5_body_length.2.1 (cardW "d15") "div[itemprop=\x27reviewBody\x27]"
      ["[data-testid*=\x27review-text\x27]", "div[class*=\x27reviewBody\x27]",
       "div[class*=\x27review-body\x27]", "p"] bodyW rfl (by decide),
   C5_body_length.2.2.1 pdW 10 20 1 pagesW ⟨[recG2W], 1, .maxPages⟩ rfl recG2W
      (by decide)⟩

/-- C6: detect_blocked is a predicate on the markup string alone that
holds exactly when some indicator phrase occurs case-insensitively; in
particular any string containing the unusual-traffic phrase in any letter
case is classified blocked, and a string containing no indicator phrase
is not. -/
theorem C6_detect_blocked_characterization :
    (∀ html : String, detect_blocked html = true ↔
        ∃ n ∈ blockedNeedles, (lowerStr n).data <:+: (lowerStr html).data) ∧
    (∀ a t b : String, lowerStr t = "unusual traffic" →
        detect_blocked (a ++ t ++ b) = true) ∧
    (∀ html : String,
        (∀ n ∈ blockedNeedles, ¬ (lowerStr n).data <:+: (lowerStr html).data) →
        detect_blocked html = false) := by
  have hchar : ∀ html : String, detect_blocked html = true ↔
      ∃ n ∈ blockedNeedles, (lowerStr n).data <:+: (lowerStr html).data := by
    intro html
    simp [detect_blocked, strContains, List.any_eq_true]
  refine ⟨hchar, ?_, ?_⟩
  · intro a t b ht
    have hself : lowerStr "unusual traffic" = "unusual traffic" := by decide
    rw [hchar]
    refine ⟨"unusual traffic", by decide, ?_⟩
    have hdata : (lowerStr (a ++ t ++ b)).data =
        (lowerStr a).data ++ (lowerStr t).data ++ (lowerStr b).data := by
      simp [lowerStr, String.data_append]
    rw [hself, ← ht, hdata]
    exact List.infix_append _ _ _
  · intro html h
    cases hb : detect_blocked html with
    | false => rfl
    | true =>
      obtain ⟨n, hn, hinf⟩ := (hchar html).mp hb
      exact absurd hinf (h n hn)

/-- Witness for C6: a concrete upper-case occurrence is detected and a
concrete harmless markup is not. -/
theorem C6_detect_blocked_characterization_witness :
    detect_blocked ("xx " ++ "UNUSUAL TRAFFIC" ++ " yy") = true ∧
    detect_blocked "a nice product review" = false :=
  ⟨C6_detect_blocked_characterization.2.1 "xx " "UNUSUAL TRAFFIC" " yy" (by decide),
   C6_detect_blocked_characterization.2.2 "a nice product review" (by decide)⟩

/-- C7: a successful run of either adapter visits at most max_pages pages
(the command-line default being 10) and, with at most 60 cards kept per
page, returns at most 60 * max_pages records. -/
theorem C7_resource_bounds :
    default_max_pages = 10 ∧
    (∀ (parseDate : String → Option Int) (start_d end_d : Int) (max_pages : Nat)
       (pages : Nat → Page) (res : HarvestResult),
       scrape_g2 parseDate start_d end_d max_pages pages = .ok res →
       res.pagesVisited ≤ max_pages ∧ res.records.length ≤ 60 * max_pages) ∧
    (∀ (parseDate : String → Option Int) (start_d end_d : Int) (max_pages : Nat)
       (pages : Nat → Page) (res : HarvestResult),
       scrape_trustradius parseDate start_d end_d max_pages pages = .ok res →
       res.pagesVisited ≤ max_pages ∧ res.records.length ≤ 60 * max_pages) := by
  refine ⟨rfl, ?_, ?_⟩
  · intro parseDate start_d end_d max_pages pages res h
    obtain ⟨h1, h2⟩ := g2_go_bounds h
    have h3 : res.records.length ≤ 0 + 60 * max_pages := h2
    constructor <;> omega
  · intro parseDate start_d end_d max_pages pages res h
    obtain ⟨h1, h2⟩ := tr_go_bounds h
    have h3 : res.records.length ≤ 0 + 60 * max_pages := h2
    constructor <;> omega

/-- Witness for C7 at a concrete two-page run. -/
theorem C7_resource_bounds_witness : (2 : Nat) ≤ 2 ∧ (2 : Nat) ≤ 60 * 2 :=
  C7_resource_bounds.2.1 pdW 10 20 2 pagesW ⟨[recG2W, recG2W], 2, .maxPages⟩ rfl

/-- C8: the Capterra adapter returns the empty collection for every
input. -/
theorem C8_capterra_empty :
    ∀ (company_id : String) (start_d end_d : Int) (debug_html headless : Bool)
      (slow_mo : Int),
      scrape_capterra company_id start_d end_d debug_html headless slow_mo = [] :=
  fun _ _ _ _ _ _ => rfl

/-- C9: every record the TrustRadius adapter emits carries rating none. -/
theorem C9_trustradius_rating_none
    (parseDate : String → Option Int) (start_d end_d : Int) (max_pages : Nat)
    (pages : Nat → Page) (res : HarvestResult)
    (h : scrape_trustradius parseDate start_d end_d max_pages pages = .ok res) :
    ∀ r ∈ res.records, r.rating = none := by
  intro r hr
  rcases tr_go_mem h r hr with h1 | ⟨q, c, hc, hp⟩
  · exact absurd h1 (List.not_mem_nil r)
  · obtain ⟨-, -, -, -, hrat, -⟩ := tr_process_some hp
    exact hrat

/-- Witness for C9 at a concrete TrustRadius run emitting one record. -/
theorem C9_trustradius_rating_none_witness : recTrW.rating = none :=
  C9_trustradius_rating_none pdW 10 20 1 pagesW ⟨[recTrW], 1, .maxPages⟩ rfl recTrW
    (by decide)

/-- C10: a G2 card whose parsed date is later than end_d yields no record
and leaves the stop flag unset, and a dateBoundary stop can only come
from some processed card whose parsed date is strictly before start_d. -/
theorem C10_newer_dates_no_stop :
    (∀ (parseDate : String → Option Int) (start_d end_d : Int) (c : Container)
       (dv : Int), start_d ≤ end_d →
       containerDate parseDate c g2_date_selectors = some dv → end_d < dv →
       g2_process parseDate start_d end_d c = (none, false)) ∧
    (∀ (parseDate : String → Option Int) (start_d end_d : Int) (max_pages : Nat)
       (pages : Nat → Page) (res : HarvestResult),
       scrape_g2 parseDate start_d end_d max_pages pages = .ok res →
       res.reason = .dateBoundary →
       ∃ q c dv, q ≤ res.pagesVisited ∧ c ∈ (pages q).cards.take 60 ∧
         containerDate parseDate c g2_date_selectors = some dv ∧ dv < start_d) := by
  refine ⟨fun parseDate start_d end_d c dv hse hd hgt =>
    g2_process_newer hse hd hgt, ?_⟩
  intro parseDate start_d end_d max_pages pages res h hres
  exact g2_go_dateBoundary rfl h hres

/-- Witness for C10 at a concrete newer-than-window card. -/
theorem C10_newer_dates_no_stop_witness :
    g2_process pdW 10 20 (cardW "d25") = (none, false) :=
  C10_newer_dates_no_stop.1 pdW 10 20 (cardW "d25") 25 (by decide) rfl (by decide)
